import Mathlib

/-!
Shallow embedding of the client-side business logic of the
"A Cut Above" storefront frontend:
  * the cart store (src/context/CartContext.tsx): add / remove / setQty /
    clear, the persisted-state initializer, and the derived subtotal;
  * the shop stock helpers (src/pages/public/ShopPage.tsx): stockFor,
    inCartQty, remainingStock, clampQtyForProduct;
  * the order-total reconciler (src/components/OrdersTab.tsx):
    recomputeOrderClient;
  * the dashboard aggregates (src/components/DashboardTab.tsx):
    weightsComplete, kpis, sales-by-day, best sellers, top customers;
  * the checkout stock check (src/pages/public/CheckoutPage.tsx):
    runStockCheck.

JavaScript numbers are modelled as rationals (ℚ); the nullable stock
field as an Option; the weight field of an order item as an inductive
covering the values the code distinguishes (null, undefined, the empty
string, or a number).  JS Map / plain-object records are modelled as
association lists with JS insertion semantics (update in place when the
key exists, append otherwise).
-/

namespace ACA

/-- A catalog product as the cart and shop pages use it
(src/types/index.ts): `stockQty = none` models `null`/`undefined`
("unlimited / wholesale"). -/
structure Product where
  id : String
  price : ℚ
  stockQty : Option ℚ
deriving DecidableEq, Repr

/-- A cart line: a product snapshot plus a requested quantity
(src/types/index.ts `CartItem`). -/
structure CartItem where
  product : Product
  qty : ℚ
deriving DecidableEq, Repr

/-- `add` of CartContext: merge into the existing line for the same
product id, else append a new line. -/
def cartAdd (prev : List CartItem) (product : Product) (qty : ℚ) :
    List CartItem :=
  match prev.find? (fun i => i.product.id == product.id) with
  | some _ =>
      prev.map (fun i =>
        if i.product.id == product.id then { i with qty := i.qty + qty } else i)
  | none => prev ++ [{ product := product, qty := qty }]

/-- `remove` of CartContext: drop every line with the given product id. -/
def cartRemove (prev : List CartItem) (productId : String) : List CartItem :=
  prev.filter (fun i => !(i.product.id == productId))

/-- `setQty` of CartContext: overwrite the quantity on the matching line,
then drop every line whose quantity is not positive. -/
def cartSetQty (prev : List CartItem) (productId : String) (qty : ℚ) :
    List CartItem :=
  (prev.map (fun i =>
      if i.product.id == productId then { i with qty := qty } else i)).filter
    (fun i => decide (0 < i.qty))

/-- `clear` of CartContext. -/
def cartClear (_prev : List CartItem) : List CartItem := []

/-- `subtotal` of CartContext: reduce over the lines, accumulating
`product.price * qty`. -/
def subtotal (items : List CartItem) : ℚ :=
  items.foldl (fun sum i => sum + i.product.price * i.qty) 0

/-- One cart-store operation, as exposed by the CartContext. -/
inductive CartOp where
  | add (product : Product) (qty : ℚ)
  | remove (productId : String)
  | setQty (productId : String) (qty : ℚ)
  | clear
deriving DecidableEq, Repr

/-- Apply one cart operation to the current line list. -/
def applyCartOp (items : List CartItem) : CartOp → List CartItem
  | CartOp.add p q => cartAdd items p q
  | CartOp.remove pid => cartRemove items pid
  | CartOp.setQty pid q => cartSetQty items pid q
  | CartOp.clear => cartClear items

/-- Run a sequence of cart operations from a starting cart. -/
def runCartOps (ops : List CartOp) (items : List CartItem) : List CartItem :=
  ops.foldl applyCartOp items

/-- The CartProvider `useState` initializer: read the persisted raw
string (absent ⇒ `none`) and attempt to parse it; any parse failure or
absence falls back to the empty cart.  `JSON.parse` plus the cast is
abstracted as a `parseJson` function returning `none` on failure. -/
def initCartItems (stored : Option String)
    (parseJson : String → Option (List CartItem)) : List CartItem :=
  match stored with
  | none => []
  | some raw =>
    match parseJson raw with
    | some items => items
    | none => []

/-- `stockFor` of ShopPage: `null`/`undefined` stock means unlimited. -/
def stockFor (p : Product) : Option ℚ := p.stockQty

/-- `inCartQty` of ShopPage: the quantity of the given product already in
the cart, 0 when absent. -/
def inCartQty (items : List CartItem) (productId : String) : ℚ :=
  match items.find? (fun x => x.product.id == productId) with
  | some row => row.qty
  | none => 0

/-- `remainingStock` of ShopPage: `none` for unlimited stock, otherwise
`max 0 (stock - qty already in cart)`. -/
def remainingStock (items : List CartItem) (p : Product) : Option ℚ :=
  match stockFor p with
  | none => none
  | some s => some (max 0 (s - inCartQty items p.id))

/-- `clampQtyForProduct` of ShopPage. -/
def clampQtyForProduct (items : List CartItem) (p : Product) (desired : ℚ) :
    ℚ :=
  match stockFor p with
  | none => max 1 desired
  | some _ =>
    let remaining := (remainingStock items p).getD 0
    max 1 (min desired remaining)

/-- The values the dashboard / orders code distinguishes in the
`weightKg` field of an order item: `null`, `undefined`, the empty
string, or a number. -/
inductive WeightVal where
  | wNull
  | wUndefined
  | wEmptyStr
  | wNum (q : ℚ)
deriving DecidableEq, Repr

/-- The per-item presence check used by `weightsComplete`:
`w !== null && w !== undefined && w !== ""`. -/
def weightPresent : WeightVal → Bool
  | WeightVal.wNull => false
  | WeightVal.wUndefined => false
  | WeightVal.wEmptyStr => false
  | WeightVal.wNum _ => true

/-- An order line as the admin dashboard sees it: `lineTotal` is the
backend-computed line total the dashboard trusts. -/
structure OrderItem where
  unit : String
  unitPrice : ℚ
  qty : ℚ
  weightKg : WeightVal
  lineTotal : ℚ
  productName : String
deriving DecidableEq, Repr

/-- Character-wise lowercase of a string, mirroring the JS
`toLowerCase()` used on unit strings (stated over the character list so
concrete instances evaluate in the kernel). -/
def toLowerStr (s : String) : String := String.mk (s.data.map Char.toLower)

/-- `isKgItem`: an item is weight-based iff its unit, lowercased, is
`"kg"`. -/
def isKgItem (it : OrderItem) : Bool := toLowerStr it.unit == "kg"

/-- An admin order; `createdDay` is the day key the dashboard derives
from `createdAt` for the sales-over-time grouping. -/
structure AdminOrder where
  items : List OrderItem
  total : ℚ
  createdDay : String
  customerName : String
  customerPhone : String
deriving DecidableEq, Repr

/-- `weightsComplete` (identical in OrdersTab and DashboardTab): with no
kg items the order is vacuously complete, otherwise every kg item must
have a present weight. -/
def weightsComplete (o : AdminOrder) : Bool :=
  let kgItems := o.items.filter isKgItem
  if kgItems.length == 0 then true
  else kgItems.all (fun it => weightPresent it.weightKg)

/-- `moneyReady` of DashboardTab: money is trusted iff weights are
complete. -/
def moneyReady (o : AdminOrder) : Bool := weightsComplete o

/-- The per-item step of `recomputeOrderClient`: kg items get
`unitPrice * weightKg` when the weight is present and 0 otherwise; pack
items get `unitPrice * qty`. -/
def recomputeItem (it : OrderItem) : OrderItem :=
  if toLowerStr it.unit == "kg" then
    match it.weightKg with
    | WeightVal.wNum w => { it with lineTotal := it.unitPrice * w }
    | _ => { it with lineTotal := 0 }
  else
    { it with lineTotal := it.unitPrice * it.qty }

/-- The record returned by `recomputeOrderClient`. -/
structure RecomputeResult where
  items : List OrderItem
  subtotal : ℚ
  total : ℚ
deriving DecidableEq, Repr

/-- `recomputeOrderClient` of OrdersTab: recompute every line total and
sum them into the subtotal; the total equals the subtotal. -/
def recomputeOrderClient (o : AdminOrder) : RecomputeResult :=
  let nextItems := o.items.map recomputeItem
  let sub := nextItems.foldl (fun sum it => sum + it.lineTotal) 0
  { items := nextItems, subtotal := sub, total := sub }

/-- Association-list update with JS Map / record-assignment semantics:
overwrite in place when the key exists, append otherwise. -/
def setEntry {α : Type} (k : String) (v : α) :
    List (String × α) → List (String × α)
  | [] => [(k, v)]
  | e :: rest => if e.1 == k then (k, v) :: rest else e :: setEntry k v rest

/-- Association-list read with a default, i.e. `map.get(key) || dflt`. -/
def getEntry {α : Type} (k : String) (d : α) : List (String × α) → α
  | [] => d
  | e :: rest => if e.1 == k then e.2 else getEntry k d rest

/-- The money-ready subset of the (filtered) orders. -/
def moneyReadyOrders (orders : List AdminOrder) : List AdminOrder :=
  orders.filter moneyReady

/-- The KPI record computed by DashboardTab. -/
structure Kpis where
  totalOrders : ℕ
  moneyOrders : ℕ
  revenue : ℚ
  avgOrder : ℚ
  itemsSold : ℚ
  pendingWeights : ℕ
deriving DecidableEq, Repr

/-- `kpis` of DashboardTab (the monetary/count part): revenue reduces the
backend totals over money-ready orders only, items-sold reduces the
quantities over all filtered orders, and the pending-weights counter is
the difference of the two order counts. -/
def kpis (orders : List AdminOrder) : Kpis :=
  let totalOrders := orders.length
  let moneyOrders := (moneyReadyOrders orders).length
  let revenue := (moneyReadyOrders orders).foldl (fun acc o => acc + o.total) 0
  let avgOrder := if moneyOrders = 0 then 0 else revenue / (moneyOrders : ℚ)
  let itemsSold :=
    orders.foldl
      (fun acc o => acc + o.items.foldl (fun a it => a + it.qty) 0) 0
  let pendingWeights := totalOrders - moneyOrders
  { totalOrders := totalOrders, moneyOrders := moneyOrders,
    revenue := revenue, avgOrder := avgOrder, itemsSold := itemsSold,
    pendingWeights := pendingWeights }

/-- One pass of the sales-over-time loop: ensure the day bucket exists,
bump its order count, and add the backend total to its revenue only when
the order is money-ready.  A bucket is a `(revenue, orders)` pair. -/
def salesStep (byDay : List (String × (ℚ × ℕ))) (o : AdminOrder) :
    List (String × (ℚ × ℕ)) :=
  let cur := getEntry o.createdDay (0, 0) byDay
  let counted : ℚ × ℕ := (cur.1, cur.2 + 1)
  let updated := if moneyReady o then (counted.1 + o.total, counted.2) else counted
  setEntry o.createdDay updated byDay

/-- The `byDay` record built by the `salesSeries` memo of DashboardTab. -/
def salesByDay (orders : List AdminOrder) : List (String × (ℚ × ℕ)) :=
  orders.foldl salesStep []

/-- The best-seller key: `String(it.productName || "").trim() || "Unknown"`. -/
def prodKey (name : String) : String :=
  let t := name.trim
  if t == "" then "Unknown" else t

/-- The `topProducts` map of DashboardTab, as `(qty, revenue)` buckets
keyed by product name: quantity accumulates over every filtered order,
revenue accumulates the backend line totals only when the enclosing
order is money-ready. -/
def topProductsAgg (orders : List AdminOrder) : List (String × (ℚ × ℚ)) :=
  orders.foldl
    (fun m o =>
      o.items.foldl
        (fun m it =>
          let name := prodKey it.productName
          let cur := getEntry name (0, 0) m
          let updated :=
            (cur.1 + it.qty,
             if moneyReady o then cur.2 + it.lineTotal else cur.2)
          setEntry name updated m)
        m)
    []

/-- The customer-grouping key of `topCustomers`:
trimmed name `|` trimmed phone. -/
def custKey (o : AdminOrder) : String :=
  o.customerName.trim ++ "|" ++ o.customerPhone.trim

/-- The `topCustomers` map of DashboardTab, as `(orders, spend)` buckets:
the order count accumulates over every filtered order, the spend
accumulates the backend totals only when the order is money-ready. -/
def topCustomersAgg (orders : List AdminOrder) : List (String × (ℕ × ℚ)) :=
  orders.foldl
    (fun m o =>
      let key := custKey o
      let cur := getEntry key (0, 0) m
      let updated : ℕ × ℚ :=
        (cur.1 + 1, if moneyReady o then cur.2 + o.total else cur.2)
      setEntry key updated m)
    []

/-- A backend-reported stock conflict for one product
(src/pages/public/CheckoutPage.tsx). -/
structure StockIssue where
  productId : String
  requested : ℚ
  available : ℚ
  reason : String
deriving DecidableEq, Repr

/-- The outcome of the stock-check HTTP call: success, an HTTP 409
conflict carrying issues, or any other failure (network/server error). -/
inductive StockResp where
  | success
  | conflict (issues : List StockIssue)
  | otherError
deriving DecidableEq, Repr

/-- What `runStockCheck` leaves behind: the `stockIssuesById` state and
the returned `ok` flag and issue list. -/
structure StockCheckResult where
  issuesById : List (String × StockIssue)
  ok : Bool
  issues : List StockIssue
deriving DecidableEq, Repr

/-- `runStockCheck` of CheckoutPage: an empty cart or a success response
clears the issue map and reports ok; a 409 conflict rebuilds the map
from scratch with one assignment per reported issue keyed by product id;
any other failure leaves the map untouched and still reports ok. -/
def runStockCheck (items : List CartItem)
    (prevIssuesById : List (String × StockIssue)) (resp : StockResp) :
    StockCheckResult :=
  if items.length = 0 then
    { issuesById := [], ok := true, issues := [] }
  else
    match resp with
    | StockResp.success => { issuesById := [], ok := true, issues := [] }
    | StockResp.conflict issues =>
      { issuesById := issues.foldl (fun m it => setEntry it.productId it m) [],
        ok := false, issues := issues }
    | StockResp.otherError =>
      { issuesById := prevIssuesById, ok := true, issues := [] }

/-! Concrete sample values used by witnesses and counterexamples. -/

/-- A sample product with stock 3. -/
def sampleProductA : Product :=
  { id := "prodA", price := 10, stockQty := some 3 }

/-- A sample product with unlimited stock. -/
def sampleProductB : Product :=
  { id := "prodB", price := 4, stockQty := none }

/-- A sample product that is sold out (stock 0). -/
def soldOutProduct : Product :=
  { id := "prodC", price := 7, stockQty := some 0 }

/-- A pack-based sample order item: 3 packs at unit price 10. -/
def samplePackItem : OrderItem :=
  { unit := "pack", unitPrice := 10, qty := 3,
    weightKg := WeightVal.wNull, lineTotal := 0, productName := "Sausages" }

/-- A kg-based sample item with a recorded weight of 1.5. -/
def sampleKgItem : OrderItem :=
  { unit := "kg", unitPrice := 20, qty := 1,
    weightKg := WeightVal.wNum (3 / 2), lineTotal := 0,
    productName := "Brisket" }

/-- A kg-based sample item with no recorded weight. -/
def sampleKgItemNoWeight : OrderItem :=
  { unit := "kg", unitPrice := 20, qty := 1,
    weightKg := WeightVal.wNull, lineTotal := 0, productName := "Ribs" }

/-- A kg-based sample item whose recorded weight is exactly 0. -/
def sampleKgItemZeroWeight : OrderItem :=
  { unit := "kg", unitPrice := 20, qty := 1,
    weightKg := WeightVal.wNum 0, lineTotal := 0, productName := "Shank" }

/-- A sample order with one pack item and one weighed kg item. -/
def sampleOrder : AdminOrder :=
  { items := [samplePackItem, sampleKgItem], total := 60,
    createdDay := "2026-10-01", customerName := "Ana",
    customerPhone := "555" }

/-- An order holding both a zero-weight kg item and a kg item with no
weight recorded. -/
def mixedWeightOrder : AdminOrder :=
  { items := [sampleKgItemZeroWeight, sampleKgItemNoWeight], total := 0,
    createdDay := "2026-10-02", customerName := "Bo", customerPhone := "556" }

/-- A parse function standing in for `JSON.parse` in witnesses: accepts
exactly one raw string. -/
def sampleParse (raw : String) : Option (List CartItem) :=
  if raw == "cart-blob" then some [{ product := sampleProductA, qty := 2 }]
  else none

/-- An order whose kg items all have present weights, one of them 0. -/
def zeroWeightOrder : AdminOrder :=
  { items := [sampleKgItemZeroWeight, sampleKgItem], total := 30,
    createdDay := "2026-10-03", customerName := "Cy", customerPhone := "557" }

/-- A sample cart holding 2 units of `sampleProductA`. -/
def sampleCart : List CartItem := [{ product := sampleProductA, qty := 2 }]

/-- A sample backend-reported stock conflict. -/
def sampleIssue : StockIssue :=
  { productId := "prodA", requested := 5, available := 3,
    reason := "INSUFFICIENT" }

/-- The flattened `(order, item)` pairs the nested best-seller loop
walks, in loop order. -/
def orderItemPairs (orders : List AdminOrder) :
    List (AdminOrder × OrderItem) :=
  (orders.map (fun o => o.items.map (fun it => (o, it)))).flatten

/-- An operation whose `add` payload (if any) carries a positive
quantity. -/
def addsPositive : CartOp → Prop
  | CartOp.add _ q => 0 < q
  | _ => True

instance (op : CartOp) : Decidable (addsPositive op) :=
  match op with
  | CartOp.add _ q => inferInstanceAs (Decidable (0 < q))
  | CartOp.remove _ => inferInstanceAs (Decidable True)
  | CartOp.setQty _ _ => inferInstanceAs (Decidable True)
  | CartOp.clear => inferInstanceAs (Decidable True)

/-- The product ids of the cart lines, in order. -/
def cartIds (items : List CartItem) : List String :=
  items.map (fun i => i.product.id)

/-! ### Shared helper lemmas -/

/-- A left fold that keeps adding `g x` is the start value plus the sum
of the mapped list. -/
theorem foldl_add_eq {α : Type} (g : α → ℚ) (l : List α) :
    ∀ a : ℚ, l.foldl (fun s x => s + g x) a = a + (l.map g).sum := by
  induction l with
  | nil => intro a; simp
  | cons x xs ih => intro a; simp [ih, add_assoc]

/-- Reading back through a `setEntry`. -/
theorem getEntry_setEntry {α : Type} (k k' : String) (d v : α)
    (m : List (String × α)) :
    getEntry k d (setEntry k' v m) = if k' = k then v else getEntry k d m := by
  induction m with
  | nil => by_cases h : k' = k <;> simp [setEntry, getEntry, h]
  | cons e rest ih =>
    by_cases h1 : e.1 = k'
    · by_cases h2 : k' = k <;> simp [setEntry, getEntry, h1, h2]
    · by_cases h2 : k' = k <;>
        by_cases h3 : e.1 = k <;>
          simp_all [setEntry, getEntry, h1, h2, h3]

/-- Reading one bucket out of a keyed accumulation loop: the bucket for
`k` is obtained by folding the update function over exactly the elements
whose key is `k`. -/
theorem getEntry_bucketFold {O α : Type} (key : O → String) (f : O → α → α)
    (d : α) (l : List O) :
    ∀ (m : List (String × α)) (k : String),
      getEntry k d
          (l.foldl
            (fun m o => setEntry (key o) (f o (getEntry (key o) d m)) m) m)
        = (l.filter (fun o => key o == k)).foldl (fun a o => f o a)
            (getEntry k d m) := by
  induction l with
  | nil => intro m k; simp
  | cons o rest ih =>
    intro m k
    by_cases h : key o = k <;>
      simp [List.filter_cons, h, ih, getEntry_setEntry]

/-- Inserting a fresh key appends the new entry. -/
theorem setEntry_append_fresh {α : Type} (k : String) (v : α)
    (m : List (String × α)) (h : ∀ e ∈ m, e.1 ≠ k) :
    setEntry k v m = m ++ [(k, v)] := by
  induction m with
  | nil => simp [setEntry]
  | cons e rest ih =>
    have he : e.1 ≠ k := h e (by simp)
    simp [setEntry, he, ih (fun e' he' => h e' (by simp [he']))]

/-- Folding `setEntry` over issues with pairwise-distinct product ids
builds exactly the pairing list, appended after the accumulator. -/
theorem issuesFold_from (issues : List StockIssue) :
    ∀ m : List (String × StockIssue),
      (issues.map (fun it => it.productId)).Nodup →
      (∀ e ∈ m, e.1 ∉ issues.map (fun it => it.productId)) →
      issues.foldl (fun m it => setEntry it.productId it m) m
        = m ++ issues.map (fun it => (it.productId, it)) := by
  induction issues with
  | nil => intro m _ _; simp
  | cons it rest ih =>
    intro m hnd hdisj
    have hfresh : ∀ e ∈ m, e.1 ≠ it.productId := by
      intro e he
      have h2 := hdisj e he
      simp only [List.map_cons, List.mem_cons, not_or] at h2
      exact h2.1
    have hnd2 := hnd
    simp only [List.map_cons, List.nodup_cons] at hnd2
    have hdisj' :
        ∀ e ∈ m ++ [(it.productId, it)],
          e.1 ∉ rest.map (fun it => it.productId) := by
      intro e he
      rcases List.mem_append.1 he with hm | hs
      · have h2 := hdisj e hm
        simp only [List.map_cons, List.mem_cons, not_or] at h2
        exact h2.2
      · simp at hs
        subst hs
        exact hnd2.1
    simp only [List.foldl_cons, setEntry_append_fresh it.productId it m hfresh]
    rw [ih (m ++ [(it.productId, it)]) hnd2.2 hdisj']
    simp

/-- Folding the per-day bucket update accumulates the money-ready
revenue and the full order count. -/
theorem salesFold_eq (l : List AdminOrder) :
    ∀ a : ℚ × ℕ,
      l.foldl
          (fun a o =>
            if moneyReady o then (a.1 + o.total, a.2 + 1) else (a.1, a.2 + 1))
          a
        = (a.1 + ((l.filter weightsComplete).map (fun o => o.total)).sum,
           a.2 + l.length) := by
  induction l with
  | nil => intro a; simp
  | cons o rest ih =>
    intro a
    by_cases h : moneyReady o = true
    · have hw : weightsComplete o = true := h
      simp only [List.foldl_cons, h, if_true, List.filter_cons, hw,
        List.map_cons, List.sum_cons, List.length_cons, ih, Prod.mk.injEq]
      exact ⟨by ring, by omega⟩
    · have hw : weightsComplete o = false := by
        cases hmw : weightsComplete o
        · rfl
        · exact absurd hmw h
      simp only [List.foldl_cons, h, if_false, List.filter_cons, hw,
        Bool.false_eq_true, List.length_cons, ih, Prod.mk.injEq]
      exact ⟨by ring, by omega⟩

/-- Folding the best-seller bucket update accumulates the full quantity
and the money-ready revenue. -/
theorem prodFold_eq (l : List (AdminOrder × OrderItem)) :
    ∀ a : ℚ × ℚ,
      l.foldl
          (fun a p =>
            (a.1 + p.2.qty,
             if moneyReady p.1 then a.2 + p.2.lineTotal else a.2))
          a
        = (a.1 + (l.map (fun p => p.2.qty)).sum,
           a.2 + ((l.filter (fun p => weightsComplete p.1)).map
                    (fun p => p.2.lineTotal)).sum) := by
  induction l with
  | nil => intro a; simp
  | cons p rest ih =>
    intro a
    by_cases h : moneyReady p.1 = true
    · have hw : weightsComplete p.1 = true := h
      simp only [List.foldl_cons, h, if_true, List.filter_cons, hw,
        List.map_cons, List.sum_cons, ih, Prod.mk.injEq]
      exact ⟨by ring, by ring⟩
    · have hw : weightsComplete p.1 = false := by
        cases hmw : weightsComplete p.1
        · rfl
        · exact absurd hmw h
      simp only [List.foldl_cons, h, if_false, List.filter_cons, hw,
        Bool.false_eq_true, List.map_cons, List.sum_cons, ih, Prod.mk.injEq]
      exact ⟨by ring, by ring⟩

/-- Folding the top-customer bucket update accumulates the full order
count and the money-ready spend. -/
theorem custFold_eq (l : List AdminOrder) :
    ∀ a : ℕ × ℚ,
      l.foldl
          (fun a o =>
            (a.1 + 1, if moneyReady o then a.2 + o.total else a.2))
          a
        = (a.1 + l.length,
           a.2 + ((l.filter weightsComplete).map (fun o => o.total)).sum) := by
  induction l with
  | nil => intro a; simp
  | cons o rest ih =>
    intro a
    by_cases h : moneyReady o = true
    · have hw : weightsComplete o = true := h
      simp only [List.foldl_cons, h, if_true, List.filter_cons, hw,
        List.map_cons, List.sum_cons, List.length_cons, ih, Prod.mk.injEq]
      exact ⟨by omega, by ring⟩
    · have hw : weightsComplete o = false := by
        cases hmw : weightsComplete o
        · rfl
        · exact absurd hmw h
      simp only [List.foldl_cons, h, if_false, List.filter_cons, hw,
        Bool.false_eq_true, List.length_cons, ih, Prod.mk.injEq]
      exact ⟨by omega, by ring⟩

/-- The nested best-seller loop, flattened over `(order, item)` pairs. -/
theorem topProductsAgg_eq_pairs (orders : List AdminOrder) :
    topProductsAgg orders
      = (orderItemPairs orders).foldl
          (fun m p =>
            setEntry (prodKey p.2.productName)
              ((getEntry (prodKey p.2.productName) (0, 0) m).1 + p.2.qty,
               if moneyReady p.1 then
                 (getEntry (prodKey p.2.productName) (0, 0) m).2
                   + p.2.lineTotal
               else (getEntry (prodKey p.2.productName) (0, 0) m).2)
              m)
          [] := by
  simp only [topProductsAgg, orderItemPairs, List.foldl_flatten,
    List.foldl_map]

/-- The dashboard revenue KPI equals the sum of the backend totals of
the weights-complete orders. -/
theorem kpis_revenue_eq (orders : List AdminOrder) :
    (kpis orders).revenue
      = ((orders.filter weightsComplete).map (fun o => o.total)).sum := by
  simp only [kpis, moneyReadyOrders]
  rw [foldl_add_eq (fun o : AdminOrder => o.total)]
  rw [show moneyReady = weightsComplete from rfl]
  simp

/-- The items-sold KPI sums the quantities over every filtered order. -/
theorem kpis_itemsSold_eq (orders : List AdminOrder) :
    (kpis orders).itemsSold
      = (orders.map (fun o => (o.items.map (fun it => it.qty)).sum)).sum := by
  simp only [kpis]
  rw [foldl_add_eq
    (fun o : AdminOrder => o.items.foldl (fun a it => a + it.qty) 0)]
  rw [zero_add]
  apply congrArg
  apply List.map_congr_left
  intro o _
  rw [foldl_add_eq (fun it : OrderItem => it.qty)]
  simp

/-- Day-bucket lookup of the sales series: revenue from weights-complete
orders of that day, order count over all orders of that day. -/
theorem salesByDay_eq (orders : List AdminOrder) (day : String) :
    getEntry day (0, 0) (salesByDay orders)
      = ((((orders.filter (fun o => o.createdDay == day)).filter
             weightsComplete).map (fun o => o.total)).sum,
         (orders.filter (fun o => o.createdDay == day)).length) := by
  have h3 : getEntry day ((0 : ℚ), (0 : ℕ)) (salesByDay orders)
      = (orders.filter (fun o => o.createdDay == day)).foldl
          (fun a o =>
            if moneyReady o then (a.1 + o.total, a.2 + 1) else (a.1, a.2 + 1))
          ((0 : ℚ), (0 : ℕ)) :=
    getEntry_bucketFold (fun o : AdminOrder => o.createdDay)
      (fun o c =>
        if moneyReady o then (c.1 + o.total, c.2 + 1) else (c.1, c.2 + 1))
      ((0 : ℚ), (0 : ℕ)) orders [] day
  rw [h3, salesFold_eq]
  simp

/-- Name-bucket lookup of the best-seller aggregation: quantity over all
order items with that name, revenue only from weights-complete orders. -/
theorem topProducts_eq (orders : List AdminOrder) (name : String) :
    getEntry name (0, 0) (topProductsAgg orders)
      = ((((orderItemPairs orders).filter
             (fun p => prodKey p.2.productName == name)).map
              (fun p => p.2.qty)).sum,
         ((((orderItemPairs orders).filter
             (fun p => prodKey p.2.productName == name)).filter
              (fun p => weightsComplete p.1)).map
              (fun p => p.2.lineTotal)).sum) := by
  rw [topProductsAgg_eq_pairs]
  have h3 : getEntry name ((0 : ℚ), (0 : ℚ))
      ((orderItemPairs orders).foldl
        (fun m p =>
          setEntry (prodKey p.2.productName)
            ((getEntry (prodKey p.2.productName) (0, 0) m).1 + p.2.qty,
             if moneyReady p.1 then
               (getEntry (prodKey p.2.productName) (0, 0) m).2
                 + p.2.lineTotal
             else (getEntry (prodKey p.2.productName) (0, 0) m).2)
            m)
        [])
      = ((orderItemPairs orders).filter
            (fun p => prodKey p.2.productName == name)).foldl
          (fun a p =>
            (a.1 + p.2.qty,
             if moneyReady p.1 then a.2 + p.2.lineTotal else a.2))
          ((0 : ℚ), (0 : ℚ)) :=
    getEntry_bucketFold
      (fun p : AdminOrder × OrderItem => prodKey p.2.productName)
      (fun p c =>
        (c.1 + p.2.qty, if moneyReady p.1 then c.2 + p.2.lineTotal else c.2))
      ((0 : ℚ), (0 : ℚ)) (orderItemPairs orders) [] name
  rw [h3, prodFold_eq]
  simp

/-- Customer-bucket lookup of the top-customer aggregation: order count
over all orders of that customer, spend only from weights-complete
orders. -/
theorem topCustomers_eq (orders : List AdminOrder) (key : String) :
    getEntry key (0, 0) (topCustomersAgg orders)
      = ((orders.filter (fun o => custKey o == key)).length,
         (((orders.filter (fun o => custKey o == key)).filter
             weightsComplete).map (fun o => o.total)).sum) := by
  have h3 : getEntry key ((0 : ℕ), (0 : ℚ)) (topCustomersAgg orders)
      = (orders.filter (fun o => custKey o == key)).foldl
          (fun a o =>
            (a.1 + 1, if moneyReady o then a.2 + o.total else a.2))
          ((0 : ℕ), (0 : ℚ)) :=
    getEntry_bucketFold (fun o : AdminOrder => custKey o)
      (fun o c => (c.1 + 1, if moneyReady o then c.2 + o.total else c.2))
      ((0 : ℕ), (0 : ℚ)) orders [] key
  rw [h3, custFold_eq]
  simp

/-- The average-order KPI divides weights-complete revenue by the
weights-complete order count (0 when there is none). -/
theorem kpis_avgOrder_eq (orders : List AdminOrder) :
    (kpis orders).avgOrder
      = (if (orders.filter weightsComplete).length = 0 then 0
         else ((orders.filter weightsComplete).map (fun o => o.total)).sum
                / ((orders.filter weightsComplete).length : ℚ)) := by
  simp only [kpis, moneyReadyOrders]
  rw [show moneyReady = weightsComplete from rfl]
  rw [foldl_add_eq (fun o : AdminOrder => o.total)]
  simp

/-- C1: the client-side order recomputation gives every pack item the
line total `unitPrice * qty`, every kg item with a present numeric
weight the line total `unitPrice * weight`, every kg item with a
null / undefined / empty weight the line total 0, and sets both the
subtotal and the total to the sum of the recomputed line totals. -/
theorem recompute_order_spec (o : AdminOrder) :
    (recomputeOrderClient o).items = o.items.map recomputeItem ∧
    (∀ it : OrderItem, isKgItem it = false →
        (recomputeItem it).lineTotal = it.unitPrice * it.qty) ∧
    (∀ it : OrderItem, ∀ w : ℚ, isKgItem it = true →
        it.weightKg = WeightVal.wNum w →
        (recomputeItem it).lineTotal = it.unitPrice * w) ∧
    (∀ it : OrderItem, isKgItem it = true →
        weightPresent it.weightKg = false →
        (recomputeItem it).lineTotal = 0) ∧
    (recomputeOrderClient o).subtotal
        = ((o.items.map recomputeItem).map (fun it => it.lineTotal)).sum ∧
    (recomputeOrderClient o).total = (recomputeOrderClient o).subtotal := by
  refine ⟨rfl, ?_, ?_, ?_, ?_, rfl⟩
  · intro it h
    simp only [isKgItem] at h
    simp [recomputeItem, h]
  · intro it w h hw
    simp only [isKgItem] at h
    simp [recomputeItem, h, hw]
  · intro it h hp
    simp only [isKgItem] at h
    cases hw : it.weightKg <;> simp_all [recomputeItem, weightPresent]
  · simp only [recomputeOrderClient]
    rw [foldl_add_eq (fun it : OrderItem => it.lineTotal)]
    simp

/-- C2: every monetary dashboard aggregate (revenue, average order
value, revenue-over-time, best-seller revenue, top-customer spend) sums
backend totals only over weights-complete orders; orders with
incomplete weights still feed the item and order counts; and the
pending-weights counter is the number of orders minus the number of
weights-complete orders. -/
theorem dashboard_money_gating (orders : List AdminOrder) :
    (kpis orders).totalOrders = orders.length ∧
    (kpis orders).moneyOrders = (orders.filter weightsComplete).length ∧
    (kpis orders).revenue
        = ((orders.filter weightsComplete).map (fun o => o.total)).sum ∧
    (kpis orders).avgOrder
        = (if (orders.filter weightsComplete).length = 0 then 0
           else ((orders.filter weightsComplete).map (fun o => o.total)).sum
                  / ((orders.filter weightsComplete).length : ℚ)) ∧
    (kpis orders).itemsSold
        = (orders.map (fun o => (o.items.map (fun it => it.qty)).sum)).sum ∧
    (kpis orders).pendingWeights
        = orders.length - (orders.filter weightsComplete).length ∧
    (∀ day : String,
        getEntry day (0, 0) (salesByDay orders)
          = ((((orders.filter (fun o => o.createdDay == day)).filter
                 weightsComplete).map (fun o => o.total)).sum,
             (orders.filter (fun o => o.createdDay == day)).length)) ∧
    (∀ name : String,
        getEntry name (0, 0) (topProductsAgg orders)
          = ((((orderItemPairs orders).filter
                 (fun p => prodKey p.2.productName == name)).map
                  (fun p => p.2.qty)).sum,
             ((((orderItemPairs orders).filter
                 (fun p => prodKey p.2.productName == name)).filter
                  (fun p => weightsComplete p.1)).map
                  (fun p => p.2.lineTotal)).sum)) ∧
    (∀ key : String,
        getEntry key (0, 0) (topCustomersAgg orders)
          = ((orders.filter (fun o => custKey o == key)).length,
             (((orders.filter (fun o => custKey o == key)).filter
                 weightsComplete).map (fun o => o.total)).sum)) := by
  refine ⟨rfl, rfl, kpis_revenue_eq orders, kpis_avgOrder_eq orders,
    kpis_itemsSold_eq orders, rfl, ?_, ?_, ?_⟩
  · intro day; exact salesByDay_eq orders day
  · intro name; exact topProducts_eq orders name
  · intro key; exact topCustomers_eq orders key

/-- C1 witness: the sample pack item totals 10 × 3, the weighed kg item
20 × 1.5, and the unweighed kg item 0. -/
theorem recompute_order_spec_witness :
    (recomputeItem samplePackItem).lineTotal
        = samplePackItem.unitPrice * samplePackItem.qty ∧
    (recomputeItem sampleKgItem).lineTotal
        = sampleKgItem.unitPrice * (3 / 2) ∧
    (recomputeItem sampleKgItemNoWeight).lineTotal = 0 :=
  ⟨(recompute_order_spec sampleOrder).2.1 samplePackItem (by decide),
   (recompute_order_spec sampleOrder).2.2.1 sampleKgItem (3 / 2) (by decide)
     rfl,
   (recompute_order_spec sampleOrder).2.2.2.1 sampleKgItemNoWeight
     (by decide) (by decide)⟩

/-- C3 (amended): the clamp returns `max 1 desired` for unlimited stock
and `max 1 (min desired remaining)` otherwise; the output is always at
least 1, and it is at most `remaining` whenever `remaining` is at least
1 (with `remaining = 0` the clamp returns 1, exceeding it). -/
theorem clamp_qty_spec (items : List CartItem) (p : Product) (desired : ℚ) :
    (p.stockQty = none → clampQtyForProduct items p desired = max 1 desired) ∧
    (∀ s : ℚ, p.stockQty = some s →
        clampQtyForProduct items p desired
          = max 1 (min desired ((remainingStock items p).getD 0))) ∧
    1 ≤ clampQtyForProduct items p desired ∧
    (∀ r : ℚ, remainingStock items p = some r → 1 ≤ r →
        clampQtyForProduct items p desired ≤ r) := by
  refine ⟨?_, ?_, ?_, ?_⟩
  · intro h; simp [clampQtyForProduct, stockFor, h]
  · intro s h; simp [clampQtyForProduct, stockFor, h]
  · cases h : p.stockQty <;>
      simp [clampQtyForProduct, stockFor, h, le_max_left]
  · intro r hr h1
    cases h : p.stockQty with
    | none => simp [remainingStock, stockFor, h] at hr
    | some s =>
      have hclamp : clampQtyForProduct items p desired
          = max 1 (min desired ((remainingStock items p).getD 0)) := by
        simp [clampQtyForProduct, stockFor, h]
      rw [hclamp, hr]
      exact max_le h1 (min_le_right desired r)

/-- C3 counterexample: with a sold-out product the remaining stock is 0
but the clamp returns 1, so the output is not bounded by the remaining
stock. -/
theorem clamp_exceeds_remaining :
    remainingStock [] soldOutProduct = some 0 ∧
    clampQtyForProduct [] soldOutProduct 5 = 1 ∧
    ¬(clampQtyForProduct [] soldOutProduct 5 ≤ 0) := by
  have hrs : remainingStock [] soldOutProduct = some 0 := by
    norm_num [remainingStock, stockFor, soldOutProduct, inCartQty]
  have hcl : clampQtyForProduct [] soldOutProduct 5 = 1 := by
    rw [show clampQtyForProduct [] soldOutProduct 5
        = max 1 (min 5 ((remainingStock [] soldOutProduct).getD 0)) by
      simp [clampQtyForProduct, stockFor, soldOutProduct]]
    rw [hrs]
    norm_num
  exact ⟨hrs, hcl, by rw [hcl]; norm_num⟩

/-- C3 witness: product with stock 3, empty cart, desired 5. -/
theorem clamp_qty_spec_witness :
    clampQtyForProduct [] sampleProductA 5
        = max 1 (min 5 ((remainingStock [] sampleProductA).getD 0)) ∧
    1 ≤ clampQtyForProduct [] sampleProductA 5 ∧
    clampQtyForProduct [] sampleProductA 5 ≤ 3 :=
  ⟨(clamp_qty_spec [] sampleProductA 5).2.1 3 rfl,
   (clamp_qty_spec [] sampleProductA 5).2.2.1,
   (clamp_qty_spec [] sampleProductA 5).2.2.2 3
     (by norm_num [remainingStock, stockFor, sampleProductA, inCartQty])
     (by norm_num)⟩

/-- C4: remaining stock is `none` exactly for unlimited products, and
otherwise equals `max 0 (stock - cart quantity)`, which is
non-negative. -/
theorem remaining_stock_spec (items : List CartItem) (p : Product) :
    (remainingStock items p = none ↔ p.stockQty = none) ∧
    (∀ s : ℚ, p.stockQty = some s →
        remainingStock items p = some (max 0 (s - inCartQty items p.id)) ∧
        0 ≤ max 0 (s - inCartQty items p.id)) := by
  constructor
  · cases h : p.stockQty <;> simp [remainingStock, stockFor, h]
  · intro s h
    exact ⟨by simp [remainingStock, stockFor, h], le_max_left 0 _⟩

/-- C4 witness: the spec scenario — stock 3 with 2 in the cart leaves
remaining stock `max 0 (3 - 2)`. -/
theorem remaining_stock_spec_witness :
    remainingStock sampleCart sampleProductA
        = some (max 0 (3 - inCartQty sampleCart sampleProductA.id)) ∧
    0 ≤ max 0 (3 - inCartQty sampleCart sampleProductA.id) :=
  (remaining_stock_spec sampleCart sampleProductA).2 3 rfl

/-- `add` with a positive quantity keeps all quantities positive. -/
theorem cartAdd_pos {items : List CartItem} {p : Product} {q : ℚ}
    (hq : 0 < q) (h : ∀ it ∈ items, 0 < it.qty) :
    ∀ it ∈ cartAdd items p q, 0 < it.qty := by
  intro it hit
  unfold cartAdd at hit
  split at hit
  · obtain ⟨i, hi, hfi⟩ := List.mem_map.1 hit
    by_cases hid : (i.product.id == p.id) = true
    · rw [if_pos hid] at hfi
      rw [← hfi]
      exact add_pos (h i hi) hq
    · rw [if_neg hid] at hfi
      rw [← hfi]
      exact h i hi
  · rcases List.mem_append.1 hit with hmem | hmem
    · exact h it hmem
    · simp at hmem
      rw [hmem]
      exact hq

/-- `remove` keeps all quantities positive. -/
theorem cartRemove_pos {items : List CartItem} {pid : String}
    (h : ∀ it ∈ items, 0 < it.qty) :
    ∀ it ∈ cartRemove items pid, 0 < it.qty := by
  intro it hit
  exact h it (List.mem_of_mem_filter hit)

/-- `setQty` leaves only positive quantities, whatever the input. -/
theorem cartSetQty_pos {items : List CartItem} {pid : String} {q : ℚ} :
    ∀ it ∈ cartSetQty items pid q, 0 < it.qty := by
  intro it hit
  have h2 := (List.mem_filter.1 hit).2
  exact of_decide_eq_true h2

/-- Running operations whose adds are positive preserves quantity
positivity. -/
theorem runCartOps_pos (ops : List CartOp) :
    ∀ items : List CartItem,
      (∀ op ∈ ops, addsPositive op) →
      (∀ it ∈ items, 0 < it.qty) →
      ∀ it ∈ runCartOps ops items, 0 < it.qty := by
  induction ops with
  | nil =>
    intro items _ h
    simpa [runCartOps] using h
  | cons op rest ih =>
    intro items hops h
    have hstep : ∀ it ∈ applyCartOp items op, 0 < it.qty := by
      cases op with
      | add p q =>
        have hq : addsPositive (CartOp.add p q) :=
          hops (CartOp.add p q) (by simp)
        exact cartAdd_pos hq h
      | remove pid => exact cartRemove_pos h
      | setQty pid q => exact cartSetQty_pos
      | clear =>
        intro it hit
        simp [applyCartOp, cartClear] at hit
    have hrest := ih (applyCartOp items op)
      (fun op' h' => hops op' (by simp [h'])) hstep
    simpa [runCartOps] using hrest

/-- C5 (amended): starting from the empty cart, a sequence of cart
operations whose `add` calls all carry a positive quantity never leaves
a line with quantity ≤ 0 (a quantity set to 0 or below is dropped by
`setQty`); an `add` with quantity ≤ 0, however, can create such a line. -/
theorem cart_no_nonpositive_lines (ops : List CartOp)
    (hpos : ∀ op ∈ ops, addsPositive op) :
    ∀ it ∈ runCartOps ops [], ¬(it.qty ≤ 0) := by
  intro it hit
  exact not_le.2 (runCartOps_pos ops [] hpos (by simp) it hit)

/-- C5 counterexample: `add` with quantity 0 retains a line whose
quantity is 0 ≤ 0. -/
theorem cart_zero_qty_line :
    ∃ it, it ∈ runCartOps [CartOp.add sampleProductA 0] [] ∧ it.qty ≤ 0 :=
  ⟨{ product := sampleProductA, qty := 0 }, by decide, by decide⟩

/-- C5 witness: two adds of distinct products with positive quantities,
a `setQty`, and a `remove`; the surviving line has positive quantity. -/
theorem cart_no_nonpositive_lines_witness :
    ¬(({ product := sampleProductA, qty := 2 } : CartItem).qty ≤ 0) :=
  cart_no_nonpositive_lines
    [CartOp.add sampleProductA 2, CartOp.add sampleProductB 1,
     CartOp.remove "prodB"]
    (by decide) _ (by decide)

/-- Updating quantities in place never changes the id list. -/
theorem cartIds_update (items : List CartItem) (c : CartItem → Bool)
    (g : CartItem → ℚ) :
    cartIds (items.map (fun i => if c i then { i with qty := g i } else i))
      = cartIds items := by
  simp only [cartIds, List.map_map]
  apply List.map_congr_left
  intro i _
  by_cases h : c i = true <;> simp [Function.comp, h]

/-- `add` preserves distinctness of the product ids. -/
theorem cartAdd_nodup {items : List CartItem} {p : Product} {q : ℚ}
    (h : (cartIds items).Nodup) : (cartIds (cartAdd items p q)).Nodup := by
  unfold cartAdd
  split
  · rw [cartIds_update items (fun i => i.product.id == p.id)
      (fun i => i.qty + q)]
    exact h
  · rename_i heq
    have hnot : p.id ∉ cartIds items := by
      intro hm
      obtain ⟨i, hi, hid⟩ := List.mem_map.1 hm
      have hfalse := List.find?_eq_none.1 heq i hi
      apply hfalse
      simp [hid]
    have hids : cartIds (items ++ [{ product := p, qty := q }])
        = cartIds items ++ [p.id] := by simp [cartIds]
    rw [hids, List.nodup_append]
    refine ⟨h, List.nodup_singleton _, ?_⟩
    intro a ha hb
    simp at hb
    subst hb
    exact hnot ha

/-- `remove` preserves distinctness of the product ids. -/
theorem cartRemove_nodup {items : List CartItem} {pid : String}
    (h : (cartIds items).Nodup) : (cartIds (cartRemove items pid)).Nodup := by
  unfold cartRemove cartIds
  exact h.sublist (List.Sublist.map _ (List.filter_sublist items))

/-- `setQty` preserves distinctness of the product ids. -/
theorem cartSetQty_nodup {items : List CartItem} {pid : String} {q : ℚ}
    (h : (cartIds items).Nodup) : (cartIds (cartSetQty items pid q)).Nodup := by
  unfold cartSetQty
  have hmap : (cartIds (items.map (fun i =>
      if i.product.id == pid then { i with qty := q } else i))).Nodup := by
    rw [cartIds_update items (fun i => i.product.id == pid) (fun _ => q)]
    exact h
  exact hmap.sublist (List.Sublist.map _ (List.filter_sublist _))

/-- Running any operation sequence preserves distinctness of the
product ids. -/
theorem runCartOps_nodup (ops : List CartOp) :
    ∀ items : List CartItem,
      (cartIds items).Nodup → (cartIds (runCartOps ops items)).Nodup := by
  induction ops with
  | nil =>
    intro items h
    simpa [runCartOps] using h
  | cons op rest ih =>
    intro items h
    have hstep : (cartIds (applyCartOp items op)).Nodup := by
      cases op with
      | add p q => exact cartAdd_nodup h
      | remove pid => exact cartRemove_nodup h
      | setQty pid q => exact cartSetQty_nodup h
      | clear => simp [applyCartOp, cartClear, cartIds]
    have hrest := ih (applyCartOp items op) hstep
    simpa [runCartOps] using hrest

/-- C10: from a cart with pairwise-distinct product ids, every sequence
of add / remove / setQty / clear operations leaves the ids
pairwise-distinct — `add` merges into the existing line rather than
appending a duplicate, and no other operation creates lines. -/
theorem cart_distinct_ids (ops : List CartOp) (items : List CartItem)
    (h : (cartIds items).Nodup) : (cartIds (runCartOps ops items)).Nodup :=
  runCartOps_nodup ops items h

/-- C10 witness: adding the same product twice plus another product
leaves the id list duplicate-free. -/
theorem cart_distinct_ids_witness :
    (cartIds (runCartOps
      [CartOp.add sampleProductB 1, CartOp.add sampleProductB 1,
       CartOp.add soldOutProduct 4, CartOp.setQty "prodC" 9] [])).Nodup :=
  cart_distinct_ids _ [] (by decide)

/-- C6: after any sequence of mutations, the derived subtotal is the
sum over the current lines of unit price times quantity. -/
theorem subtotal_spec (ops : List CartOp) (items : List CartItem) :
    subtotal (runCartOps ops items)
      = ((runCartOps ops items).map
          (fun i => i.product.price * i.qty)).sum := by
  simp only [subtotal]
  rw [foldl_add_eq (fun i : CartItem => i.product.price * i.qty)]
  simp

/-- C7: a successful stock check clears the issue map and reports ok; a
409 conflict rebuilds the map with exactly one entry per reported issue
keyed by product id (given distinct reported ids); any other failure
reports ok with no issues instead of blocking the UI. -/
theorem stock_check_spec (items : List CartItem)
    (prev : List (String × StockIssue)) :
    ((runStockCheck items prev StockResp.success).issuesById = [] ∧
     (runStockCheck items prev StockResp.success).ok = true) ∧
    (∀ issues : List StockIssue, items ≠ [] →
        (issues.map (fun it => it.productId)).Nodup →
        (runStockCheck items prev (StockResp.conflict issues)).issuesById
          = issues.map (fun it => (it.productId, it))) ∧
    (items ≠ [] →
        (runStockCheck items prev StockResp.otherError).issuesById = prev ∧
        (runStockCheck items prev StockResp.otherError).ok = true ∧
        (runStockCheck items prev StockResp.otherError).issues = []) := by
  refine ⟨?_, ?_, ?_⟩
  · by_cases h : items.length = 0 <;> simp [runStockCheck, h]
  · intro issues hne hnd
    have h : ¬items.length = 0 := by
      simpa [List.length_eq_zero] using hne
    simp only [runStockCheck, if_neg h]
    exact issuesFold_from issues [] hnd (by simp)
  · intro hne
    have h : ¬items.length = 0 := by
      simpa [List.length_eq_zero] using hne
    simp [runStockCheck, h, hne]

/-- C7 witness: a success clears the map, a one-issue conflict yields
exactly that entry, an unknown failure leaves the previous map and
reports ok. -/
theorem stock_check_spec_witness :
    ((runStockCheck sampleCart [] StockResp.success).issuesById = [] ∧
     (runStockCheck sampleCart [] StockResp.success).ok = true) ∧
    (runStockCheck sampleCart []
        (StockResp.conflict [sampleIssue])).issuesById
      = [sampleIssue].map (fun it => (it.productId, it)) ∧
    (runStockCheck sampleCart [] StockResp.otherError).ok = true :=
  ⟨(stock_check_spec sampleCart []).1,
   (stock_check_spec sampleCart []).2.1 [sampleIssue] (by decide) (by decide),
   ((stock_check_spec sampleCart []).2.2 (by decide)).2.1⟩

/-- C8: the cart-store initializer returns the empty cart whenever the
persisted value is absent or fails to parse, and returns exactly the
parsed line list when parsing succeeds; it is a total function, so no
error escapes to the caller. -/
theorem init_cart_spec (parseJson : String → Option (List CartItem)) :
    initCartItems none parseJson = [] ∧
    (∀ raw : String, parseJson raw = none →
        initCartItems (some raw) parseJson = []) ∧
    (∀ raw : String, ∀ items : List CartItem, parseJson raw = some items →
        initCartItems (some raw) parseJson = items) := by
  refine ⟨rfl, ?_, ?_⟩
  · intro raw h
    simp [initCartItems, h]
  · intro raw items h
    simp [initCartItems, h]

/-- C8 witness: a missing value and an unparseable value both give the
empty cart; the one parseable value gives back its line list. -/
theorem init_cart_spec_witness :
    initCartItems none sampleParse = [] ∧
    initCartItems (some "bad-blob") sampleParse = [] ∧
    initCartItems (some "cart-blob") sampleParse
      = [{ product := sampleProductA, qty := 2 }] :=
  ⟨(init_cart_spec sampleParse).1,
   (init_cart_spec sampleParse).2.1 "bad-blob" (by decide),
   (init_cart_spec sampleParse).2.2 "cart-blob"
     [{ product := sampleProductA, qty := 2 }] (by decide)⟩

/-- C9 (amended): a recorded weight of exactly 0 passes the per-item
presence check, so an order all of whose kg items carry present weights
— a weight of 0 included — is weights-complete, and a kg item with
weight 0 gets the line total `unitPrice * 0 = 0`; an order may still be
weights-incomplete because a different kg item lacks a weight. -/
theorem zero_weight_ok (o : AdminOrder)
    (h : ∀ it ∈ o.items, isKgItem it = true → weightPresent it.weightKg = true) :
    weightsComplete o = true ∧
    weightPresent (WeightVal.wNum 0) = true ∧
    (∀ it : OrderItem, isKgItem it = true →
        it.weightKg = WeightVal.wNum 0 →
        (recomputeItem it).lineTotal = it.unitPrice * 0 ∧
        (recomputeItem it).lineTotal = 0) := by
  refine ⟨?_, rfl, ?_⟩
  · simp only [weightsComplete]
    by_cases hlen : ((o.items.filter isKgItem).length == 0) = true
    · simp [hlen]
    · rw [if_neg hlen, List.all_eq_true]
      intro it hit
      exact h it (List.mem_of_mem_filter hit) (List.mem_filter.1 hit).2
  · intro it hkg hw
    have hline : (recomputeItem it).lineTotal = it.unitPrice * 0 := by
      simp only [isKgItem] at hkg
      simp [recomputeItem, hkg, hw]
    exact ⟨hline, by rw [hline]; ring⟩

/-- C9 counterexample: an order holding a kg item with weight 0 and a
kg item with a null weight is not weights-complete, so containing a
zero-weight kg item does not by itself make the order count as
finalized. -/
theorem zero_weight_counterexample :
    (∃ it ∈ mixedWeightOrder.items,
        isKgItem it = true ∧ it.weightKg = WeightVal.wNum 0) ∧
    weightsComplete mixedWeightOrder = false := by decide

/-- C9 witness: the order whose kg items carry weights 0 and 1.5 is
weights-complete and its zero-weight item totals 0. -/
theorem zero_weight_ok_witness :
    weightsComplete zeroWeightOrder = true ∧
    (recomputeItem sampleKgItemZeroWeight).lineTotal = 0 :=
  ⟨(zero_weight_ok zeroWeightOrder (by decide)).1,
   ((zero_weight_ok zeroWeightOrder (by decide)).2.2 sampleKgItemZeroWeight
     (by decide) rfl).2⟩

end ACA
